import Mathlib

/-!
Verification of the Zuno chat client's message-exchange orchestration.

The development shallowly embeds the orchestration core of the repository:
the routing decision and transcript mutations of `handleSendMessage` and
`handleNewChat` (App component), and the Gateway operations `startChatStream`
and `processImageTask` (`services/geminiService.ts`).  Machine-level details
of the browser platform (JSON, `Date`, `localStorage`) are modelled by their
contracts where noted in the doc comments.
-/

namespace Zuno

/-- The `Role` enum from `types.ts`: `USER = 'user'`, `MODEL = 'model'`. -/
inductive Role where
  | USER
  | MODEL
  deriving DecidableEq, Repr

/-- The optional `image` payload of a message: `{data: base64, mimeType}`. -/
structure ImageData where
  data : String
  mimeType : String
  deriving DecidableEq, Repr

/-- The `Message` record from `types.ts`.  The `timestamp : Date` field is
modelled as milliseconds since the epoch (a `Nat`), the value `Date`
wraps. -/
structure Message where
  id : String
  role : Role
  content : String
  timestamp : Nat
  image : Option ImageData
  deriving DecidableEq, Repr

/-! ### Routing decision (App.handleSendMessage) -/

/-- Bool-valued test that `spat` occurs at the front of `hay`. -/
def charsHavePre : List Char → List Char → Bool
  | [], _ => true
  | _ :: _, [] => false
  | a :: as, b :: bs => a == b && charsHavePre as bs

/-- Bool-valued test that `spat` occurs contiguously somewhere in `hay`. -/
def charsHaveSub (spat : List Char) : List Char → Bool
  | [] => spat.isEmpty
  | h :: t => charsHavePre spat (h :: t) || charsHaveSub spat t

/-- Substring test `strContains hay needle`: `needle` occurs as a substring of `hay`. -/
def strContains (hay needle : String) : Bool :=
  charsHaveSub needle.toList hay.toList

/-- The edit-intent keyword alternatives of the regex
`/filter|add|remove|change|replace|edit|make/i` in `handleSendMessage`. -/
def editKeywords : List String :=
  ["filter", "add", "remove", "change", "replace", "edit", "make"]

/-- The regex test `/filter|add|remove|change|replace|edit|make/i.test(content)`:
case-insensitive (ASCII folding, as for these ASCII-only alternatives under a
non-unicode `i` flag) substring presence of one of the keywords. -/
def matchesEditIntent (content : String) : Bool :=
  editKeywords.any (fun k => strContains content.toLower k)

/-- The chain `isEditRequest = image && !isThinking && /.../i.test(content)` in
`handleSendMessage` (a JS truthiness chain: defined exactly when all three
conjuncts hold). -/
def isEditRequest (content : String) (image : Option ImageData)
    (isThinking : Bool) : Bool :=
  image.isSome && !isThinking && matchesEditIntent content

/-- The two code paths of `handleSendMessage`. -/
inductive Route where
  | edit
  | chat
  deriving DecidableEq, Repr

/-- The branch `if (isEditRequest && image) { ... } else { ... }` in
`handleSendMessage`. -/
def routeSubmission (content : String) (image : Option ImageData)
    (isThinking : Bool) : Route :=
  if isEditRequest content image isThinking && image.isSome then Route.edit
  else Route.chat

/-! ### Model selection (startChatStream) -/

/-- The identifier `'gemini-3-pro-preview'`, the model for thinking or image analysis. -/
def reasoningModelId : String := "gemini-3-pro-preview"

/-- The identifier `'gemini-3-flash-preview'`, the model for standard chat. -/
def fastModelId : String := "gemini-3-flash-preview"

/-- The selection `const model = (options.thinking || options.image) ? 'gemini-3-pro-preview'
: 'gemini-3-flash-preview'` in `startChatStream`. -/
def selectChatModel (thinking : Bool) (image : Option ImageData) : String :=
  if thinking || image.isSome then reasoningModelId else fastModelId

/-- Concatenation of a list of strings in order (the accumulator value after
a whole fragment list has been delivered). -/
def joinAll : List String → String
  | [] => ""
  | s :: rest => s ++ joinAll rest

/-! ### Transcript mutations (App.handleSendMessage, chat-stream path) -/

/-- The update `setMessages(prev => [...prev, m])`: append a message to the transcript. -/
def appendMessage (ts : List Message) (m : Message) : List Message :=
  ts ++ [m]

/-- The `onChunk` update
`prev.map(msg => msg.id === modelMessageId ? {...msg, content: streamContent} : msg)`:
overwrite the content of every message whose id is `mid`. -/
def updateContentById (ts : List Message) (mid : String) (c : String) :
    List Message :=
  ts.map (fun m => if m.id == mid then { m with content := c } else m)

/-- Delivery of a stream's text fragments to the `onChunk` callback, in
arrival order: each fragment is appended to the accumulator
(`streamContent += chunk`) and the placeholder's content is overwritten with
the accumulator's new value.  Returns the transcript and the accumulator. -/
def applyChunks : List Message → String → String → List String →
    List Message × String
  | ts, _, acc, [] => (ts, acc)
  | ts, mid, acc, ch :: rest =>
      applyChunks (updateContentById ts mid (acc ++ ch)) mid (acc ++ ch) rest

/-- First transcript entry carrying id `mid`
(how the UI identifies the placeholder message). -/
def findById (ts : List Message) (mid : String) : Option Message :=
  ts.find? (fun m => m.id == mid)

/-- The chat-stream path of `handleSendMessage` up to stream completion:
append the USER message, append the empty MODEL placeholder (id `mid`,
creation time `now`), then deliver the stream's fragments. -/
def chatStreamStep (prior : List Message) (userMsg : Message) (mid : String)
    (now : Nat) (chunks : List String) : List Message :=
  let ph : Message :=
    { id := mid, role := Role.MODEL, content := "", timestamp := now,
      image := none }
  (applyChunks (appendMessage (appendMessage prior userMsg) ph) mid "" chunks).1

/-! ### Error reconciliation (App.handleSendMessage, catch branch) -/

/-- The fallback error text used when the thrown error has no message. -/
def fallbackErrorText : String :=
  "I'm having trouble processing that request. Please try again."

/-- The synthesized error message
`{id, role: MODEL, content: "**Error:** " + (err.message || fallback), timestamp}`. -/
def mkErrorMessage (eid : String) (errMsg : String) (now : Nat) : Message :=
  { id := eid, role := Role.MODEL,
    content := "**Error:** " ++ (if errMsg == "" then fallbackErrorText else errMsg),
    timestamp := now, image := none }

/-- The catch-branch transcript update: if the last entry is a MODEL message
with empty content, replace it with the error message
(`[...prev.slice(0, -1), errorMessage]`), otherwise append the error message. -/
def reconcileError (prev : List Message) (em : Message) : List Message :=
  match prev.getLast? with
  | some lastMsg =>
      if lastMsg.role == Role.MODEL && lastMsg.content == "" then
        prev.dropLast ++ [em]
      else prev ++ [em]
  | none => prev ++ [em]

/-! ### Persistence (App hydrate/persist effects)

The persist effect runs `localStorage.setItem(STORAGE_KEY,
JSON.stringify(messages))` whenever the transcript is non-empty; the hydrate
effect parses the stored JSON and maps each record through
`{...msg, timestamp: new Date(msg.timestamp)}`.  `JSON.stringify` renders the
`role` string-enum as its string value and each `Date` as its ISO-8601 string
(millisecond precision); `new Date(iso)` recovers the same millisecond value.
The stored form is embedded below with the platform's
millisecond ↔ ISO-string bijection modelled by an explicit injective
rendering of the millisecond value (`serializeTimestamp` / `parseTimestamp`). -/

/-- A message record as it sits in the persisted JSON array: `role` is the
raw enum string and `timestamp` the serialized date string. -/
structure StoredMessage where
  id : String
  role : String
  content : String
  timestamp : String
  image : Option ImageData
  deriving DecidableEq, Repr

/-- Decimal digit to character. -/
def digitChar (d : Nat) : Char := Char.ofNat (48 + d)

/-- Character to decimal digit value. -/
def charToDigit (c : Char) : Nat := c.toNat - 48

/-- Base-10 rendering of a natural number as characters. -/
def natToChars (n : Nat) : List Char :=
  if _h : n < 10 then [digitChar n]
  else natToChars (n / 10) ++ [digitChar (n % 10)]
decreasing_by exact Nat.div_lt_self (by omega) (by omega)

/-- Fold a character list back to the natural number it renders. -/
def charsToNat (l : List Char) : Nat :=
  l.foldl (fun a c => a * 10 + charToDigit c) 0

/-- Model of `Date.prototype.toJSON`: the serialized string is determined by
and determines the millisecond timestamp (ISO-8601 keeps milliseconds
exactly); modelled as an injective rendering of the millisecond value. -/
def serializeTimestamp (t : Nat) : String := String.mk (natToChars t)

/-- Model of `new Date(isoString)` on a string produced by
`serializeTimestamp`: recovers the millisecond value. -/
def parseTimestamp (s : String) : Nat := charsToNat s.toList

/-- The string value of a `Role` enum member (`'user'` / `'model'`). -/
def roleToString : Role → String
  | Role.USER => "user"
  | Role.MODEL => "model"

/-- Rehydrated role: the app only ever tests `msg.role === Role.USER`
(i.e. against `'user'`), so the parsed string is `USER` exactly when it is
`"user"` and behaves as `MODEL` otherwise. -/
def parseRole (s : String) : Role :=
  if s == "user" then Role.USER else Role.MODEL

/-- One message as placed in the persisted JSON array by `JSON.stringify`. -/
def serializeMessage (m : Message) : StoredMessage :=
  { id := m.id, role := roleToString m.role, content := m.content,
    timestamp := serializeTimestamp m.timestamp, image := m.image }

/-- One message as rebuilt by the hydrate effect:
`{...msg, timestamp: new Date(msg.timestamp)}`. -/
def hydrateMessage (s : StoredMessage) : Message :=
  { id := s.id, role := parseRole s.role, content := s.content,
    timestamp := parseTimestamp s.timestamp, image := s.image }

/-- The persist effect's stored value: the serialized message array. -/
def persistTranscript (ts : List Message) : List StoredMessage :=
  ts.map serializeMessage

/-- The hydrate effect: parse the stored array and rehydrate each record. -/
def hydrateTranscript (ss : List StoredMessage) : List Message :=
  ss.map hydrateMessage

/-! ### New chat (App.handleNewChat) -/

/-- Observable outcome of `handleNewChat`: whether the confirmation prompt
was shown, the resulting in-memory transcript, the persisted entry
(`none` = absent), and the dismissable error field. -/
structure NewChatOutcome where
  prompted : Bool
  messages : List Message
  stored : Option (List StoredMessage)
  errorField : Option String
  deriving DecidableEq, Repr

/-- The handler `handleNewChat`: return immediately if the transcript is empty; otherwise
prompt, and on confirmation clear the transcript, clear the error and remove
the persisted entry. -/
def handleNewChat (msgs : List Message) (stored : Option (List StoredMessage))
    (err : Option String) (userConfirms : Bool) : NewChatOutcome :=
  if msgs.length == 0 then
    { prompted := false, messages := msgs, stored := stored, errorField := err }
  else if userConfirms then
    { prompted := true, messages := [], stored := none, errorField := none }
  else
    { prompted := true, messages := msgs, stored := stored, errorField := err }

/-! ### Model Gateway (services/geminiService.ts) -/

/-- The configuration error thrown by `getAIClient` when
`process.env.API_KEY` is falsy. -/
def configErrorText : String := "API Key is not configured in the environment."

/-- JS truthiness of `process.env.API_KEY`: an unset variable or the empty
string is falsy. -/
def hasApiKey : Option String → Bool
  | none => false
  | some s => !(s == "")

/-- The guard `getAIClient`: throw the configuration error when no key is available,
otherwise hand back a client. -/
def getAIClient (apiKey : Option String) : Except String Unit :=
  if hasApiKey apiKey then Except.ok () else Except.error configErrorText

/-- A request content part: `{text}` or `{inlineData}` (both fields optional
in the SDK's loosely-typed shape). -/
structure ReqPart where
  inlineData : Option ImageData
  text : Option String
  deriving DecidableEq, Repr

/-- One turn of the upstream request: provider role name plus parts. -/
structure ChatTurn where
  role : String
  parts : List ReqPart
  deriving DecidableEq, Repr

/-- The mapping `formattedHistory = history.map(msg => ({role: msg.role === Role.USER ?
'user' : 'model', parts: [{text: msg.content}]}))` in `startChatStream`:
each prior message becomes one text-only part. -/
def formatHistory (history : List Message) : List ChatTurn :=
  history.map (fun m =>
    { role := if m.role == Role.USER then "user" else "model",
      parts := [{ inlineData := none, text := some m.content }] })

/-- The new turn's parts: the image part first when an image is provided,
then the text part. -/
def newTurnParts (newMessage : String) (image : Option ImageData) :
    List ReqPart :=
  (match image with
   | some d => [{ inlineData := some d, text := none }]
   | none => []) ++ [{ inlineData := none, text := some newMessage }]

/-- The `contents` array sent upstream by `startChatStream`: the formatted
history followed by the new user turn. -/
def buildChatRequest (history : List Message) (newMessage : String)
    (image : Option ImageData) : List ChatTurn :=
  formatHistory history ++ [{ role := "user", parts := newTurnParts newMessage image }]

/-- The operation `startChatStream`, with the provider's streaming call abstracted as a
function `net` from the request to the list of chunk texts: fail on a missing
key before anything else, otherwise send the request and return the
concatenation of the streamed chunk texts (`fullText`). -/
def startChatStream (apiKey : Option String) (history : List Message)
    (newMessage : String) (thinking : Bool) (image : Option ImageData)
    (net : String → List ChatTurn → List String) : Except String String :=
  match getAIClient apiKey with
  | Except.error e => Except.error e
  | Except.ok _ =>
      let model := selectChatModel thinking image
      Except.ok (String.join (net model (buildChatRequest history newMessage image)))

/-- A response content part as inspected by `processImageTask`
(`part.inlineData` / `part.text`, both optional). -/
structure RespPart where
  inlineData : Option ImageData
  text : Option String
  deriving DecidableEq, Repr

/-- The caption used when the provider returned no text. -/
def captionText : String := "Here is your edited image."

/-- The part-scanning loop of `processImageTask`: for each part, a present
`inlineData` overwrites the captured image; otherwise a truthy (non-empty)
`text` is appended to the accumulated text. -/
def scanParts : List RespPart → String × Option ImageData →
    String × Option ImageData
  | [], acc => acc
  | p :: rest, (t, i) =>
      match p.inlineData with
      | some d => scanParts rest (t, some d)
      | none =>
          match p.text with
          | some s => if s == "" then scanParts rest (t, i) else scanParts rest (t ++ s, i)
          | none => scanParts rest (t, i)

/-- The result assembly of `processImageTask` from
`response.candidates?.[0]?.content?.parts` (`none` models a response with no
candidates/content/parts): scan the parts from `("", null)`, then default the
text to the caption when it is empty. -/
def imageTaskResult (parts? : Option (List RespPart)) :
    String × Option ImageData :=
  let r := match parts? with
    | some ps => scanParts ps ("", none)
    | none => ("", none)
  (if r.1 == "" then captionText else r.1, r.2)

/-- The parts of the one-shot edit request: `[{text: prompt}]` with the image
part unshifted to the front when an image is given. -/
def buildEditParts (prompt : String) (imageData : Option ImageData) :
    List ReqPart :=
  match imageData with
  | some d => [{ inlineData := some d, text := none },
               { inlineData := none, text := some prompt }]
  | none => [{ inlineData := none, text := some prompt }]

/-- The operation `processImageTask`, with the provider's one-shot call abstracted as a
function `net` from the request parts to the response parts: fail on a
missing key before anything else, otherwise send the request and assemble
the `{text, image}` result. -/
def processImageTask (apiKey : Option String) (prompt : String)
    (imageData : Option ImageData)
    (net : List ReqPart → Option (List RespPart)) :
    Except String (String × Option ImageData) :=
  match getAIClient apiKey with
  | Except.error e => Except.error e
  | Except.ok _ => Except.ok (imageTaskResult (net (buildEditParts prompt imageData)))

/-- Concatenation, in order, of the text parts of a response's content
parts (the spec-side description of `processImageTask`'s text result). -/
def concatTextOfParts (parts? : Option (List RespPart)) : String :=
  match parts? with
  | some ps => joinAll (ps.filterMap (fun p => p.text))
  | none => ""

/-- The last inline-data part of a response's content parts (the spec-side
description of `processImageTask`'s image result). -/
def lastInlineOfParts (parts? : Option (List RespPart)) : Option ImageData :=
  match parts? with
  | some ps => (ps.filterMap (fun p => p.inlineData)).getLast?
  | none => none

/-! ### Concrete sample inputs -/

/-- A sample attached image. -/
def sampleImage : ImageData := { data := "aGVsbG8=", mimeType := "image/png" }

/-- A sample USER message carrying an image. -/
def sampleUserMsg : Message :=
  { id := "1", role := Role.USER, content := "add a hat", timestamp := 3,
    image := some sampleImage }

/-- A sample USER message without an image. -/
def samplePlainUserMsg : Message :=
  { id := "1", role := Role.USER, content := "hi", timestamp := 0, image := none }

/-- A sample MODEL placeholder message (empty content). -/
def samplePlaceholder : Message :=
  { id := "2", role := Role.MODEL, content := "", timestamp := 5, image := none }

/-- A sample completed MODEL message. -/
def sampleModelMsg : Message :=
  { id := "4", role := Role.MODEL, content := "Hello, world", timestamp := 9,
    image := some sampleImage }

/-! ## Helper lemmas -/

theorem updateContentById_append (a b : List Message) (mid c : String) :
    updateContentById (a ++ b) mid c =
      updateContentById a mid c ++ updateContentById b mid c := by
  unfold updateContentById
  exact List.map_append _ _ _

theorem updateContentById_fresh (a : List Message) (mid c : String)
    (h : ∀ m ∈ a, m.id ≠ mid) : updateContentById a mid c = a := by
  unfold updateContentById
  conv_rhs => rw [← List.map_id a]
  refine List.map_congr_left ?_
  intro m hm
  have : (m.id == mid) = false := by
    simp only [beq_eq_false_iff_ne, ne_eq]
    exact h m hm
  simp [this]

theorem updateContentById_single (ph : Message) (c : String) :
    updateContentById [ph] ph.id c = [{ ph with content := c }] := by
  simp [updateContentById]

/-! ## Claim theorems -/

/-- Claim C1: the image-edit path is chosen if and only if an image is
attached, thinking mode is off, and the user's text case-insensitively
contains one of the edit keywords; negating any of the three conditions
routes the submission to the chat-stream path. -/
theorem routeSubmission_edit_iff (content : String) (image : Option ImageData)
    (isThinking : Bool) :
    routeSubmission content image isThinking = Route.edit ↔
      (image.isSome = true ∧ isThinking = false ∧
        matchesEditIntent content = true) := by
  unfold routeSubmission isEditRequest
  cases image <;> cases isThinking <;> cases h : matchesEditIntent content <;>
    simp_all

/-- Claim C6: `startChatStream` selects the reasoning model exactly when the
thinking option is set or an image is attached, and the fast model
otherwise. -/
theorem selectChatModel_spec (thinking : Bool) (image : Option ImageData) :
    (selectChatModel thinking image = reasoningModelId ↔
      (thinking = true ∨ image.isSome = true)) ∧
    (selectChatModel thinking image = fastModelId ↔
      (thinking = false ∧ image.isSome = false)) := by
  unfold selectChatModel
  cases thinking <;> cases image <;>
    simp [reasoningModelId, fastModelId]

/-- Claim C7: "new chat" on an empty transcript shows no prompt and leaves
the transcript and the persisted entry untouched; on a non-empty transcript
with the user confirming, it clears the transcript and deletes the persisted
entry. -/
theorem newChat_spec (msgs : List Message) (stored : Option (List StoredMessage))
    (err : Option String) (userConfirms : Bool) :
    (msgs = [] →
      handleNewChat msgs stored err userConfirms =
        { prompted := false, messages := [], stored := stored,
          errorField := err }) ∧
    (msgs ≠ [] → userConfirms = true →
      handleNewChat msgs stored err userConfirms =
        { prompted := true, messages := [], stored := none,
          errorField := none }) := by
  constructor
  · rintro rfl
    rfl
  · intro hne hc
    subst hc
    have : (msgs.length == 0) = false := by
      simp [List.length_eq_zero, hne]
    simp [handleNewChat, this]

/-- Witness for C7 at a concrete non-empty transcript with confirmation. -/
theorem newChat_spec_witness :
    handleNewChat [sampleUserMsg] (some [serializeMessage sampleUserMsg])
        (some "e") true =
      { prompted := true, messages := [], stored := none,
        errorField := none } := by
  exact (newChat_spec [sampleUserMsg] (some [serializeMessage sampleUserMsg])
    (some "e") true).2 (by decide) rfl

theorem applyChunks_closed (chunks : List String) :
    ∀ (pre : List Message) (ph : Message) (acc : String),
      (∀ m ∈ pre, m.id ≠ ph.id) → ph.content = acc →
      (applyChunks (pre ++ [ph]) ph.id acc chunks).1 =
        pre ++ [{ ph with content := acc ++ joinAll chunks }] := by
  induction chunks with
  | nil =>
      intro pre ph acc hfresh hacc
      show pre ++ [ph] = pre ++ [{ ph with content := acc ++ joinAll [] }]
      have : acc ++ joinAll [] = ph.content := by
        show acc ++ "" = ph.content
        simp [hacc]
      rw [this]
  | cons ch rest ih =>
      intro pre ph acc hfresh hacc
      show (applyChunks (updateContentById (pre ++ [ph]) ph.id (acc ++ ch))
        ph.id (acc ++ ch) rest).1 = _
      rw [updateContentById_append, updateContentById_fresh pre _ _ hfresh,
        updateContentById_single]
      have hfresh' : ∀ m ∈ pre, m.id ≠ ({ ph with content := acc ++ ch } : Message).id :=
        hfresh
      have := ih pre { ph with content := acc ++ ch } (acc ++ ch) hfresh' rfl
      rw [this]
      show pre ++ [{ ph with content := (acc ++ ch) ++ joinAll rest }] =
        pre ++ [{ ph with content := acc ++ (ch ++ joinAll rest) }]
      rw [String.append_assoc]

theorem findById_append_fresh (pre l : List Message) (mid : String)
    (h : ∀ m ∈ pre, m.id ≠ mid) :
    findById (pre ++ l) mid = findById l mid := by
  induction pre with
  | nil => rfl
  | cons m t ih =>
      have hm : ¬((fun x => x.id == mid) m = true) := by
        simp only [beq_iff_eq]
        exact h m (by simp)
      show List.find? _ (m :: (t ++ l)) = _
      rw [List.find?_cons_of_neg (t ++ l) hm]
      exact ih (fun x hx => h x (by simp [hx]))

/-- Claim C2: on the chat-stream path, after the n-th fragment the
placeholder MODEL message's content is the concatenation of the first n
fragments in arrival order, and after stream completion the transcript is
the prior transcript plus the USER message plus exactly one MODEL message
holding the full concatenation. -/
theorem chatStream_spec (prior : List Message) (userMsg : Message)
    (mid : String) (now : Nat) (chunks : List String)
    (hprior : ∀ m ∈ prior, m.id ≠ mid) (huser : userMsg.id ≠ mid) :
    (∀ n : Nat,
      findById (chatStreamStep prior userMsg mid now (chunks.take n)) mid =
        some { id := mid, role := Role.MODEL,
               content := joinAll (chunks.take n), timestamp := now,
               image := none }) ∧
    chatStreamStep prior userMsg mid now chunks =
      prior ++ [userMsg,
        { id := mid, role := Role.MODEL, content := joinAll chunks,
          timestamp := now, image := none }] := by
  have hfresh : ∀ m ∈ prior ++ [userMsg], m.id ≠ mid := by
    intro m hm
    rcases List.mem_append.mp hm with h | h
    · exact hprior m h
    · rw [List.mem_singleton.mp h]
      exact huser
  have key : ∀ cs : List String,
      chatStreamStep prior userMsg mid now cs =
        (prior ++ [userMsg]) ++
          [{ id := mid, role := Role.MODEL, content := joinAll cs,
             timestamp := now, image := none }] := by
    intro cs
    exact applyChunks_closed cs (prior ++ [userMsg])
      { id := mid, role := Role.MODEL, content := "", timestamp := now,
        image := none } "" hfresh rfl
  constructor
  · intro n
    rw [key, findById_append_fresh _ _ _ hfresh]
    show List.find? _ (_ :: []) = _
    rw [List.find?_cons_of_pos _ (by simp)]
  · rw [key, List.append_assoc]
    rfl

/-- Witness for C2: for the fragment sequence `["Hel", "lo, ", "world"]`,
after the second fragment the placeholder's content is `"Hello, "`. -/
theorem chatStream_spec_witness :
    findById (chatStreamStep [] samplePlainUserMsg "2" 5
        (["Hel", "lo, ", "world"].take 2)) "2" =
      some { id := "2", role := Role.MODEL, content := "Hello, ",
             timestamp := 5, image := none } := by
  have h := (chatStream_spec [] samplePlainUserMsg "2" 5
    ["Hel", "lo, ", "world"] (by simp) (by decide)).1 2
  exact h

theorem reconcileError_eq_replace (prev : List Message) (em l : Message)
    (hl : prev.getLast? = some l)
    (hc : (l.role == Role.MODEL && l.content == "") = true) :
    reconcileError prev em = prev.dropLast ++ [em] := by
  unfold reconcileError
  rw [hl]
  show (if l.role == Role.MODEL && l.content == "" then prev.dropLast ++ [em]
    else prev ++ [em]) = prev.dropLast ++ [em]
  rw [hc]
  rfl

theorem reconcileError_eq_append (prev : List Message) (em : Message)
    (hno : ∀ l, prev.getLast? = some l →
      (l.role == Role.MODEL && l.content == "") = false) :
    reconcileError prev em = prev ++ [em] := by
  unfold reconcileError
  cases hgl : prev.getLast? with
  | none => rfl
  | some l =>
      show (if l.role == Role.MODEL && l.content == "" then prev.dropLast ++ [em]
        else prev ++ [em]) = prev ++ [em]
      rw [hno l hgl]
      rfl

/-- Claim C3: a Gateway failure produces a MODEL message whose content is
`"**Error:** "` followed by the error's message; when the last transcript
entry is a MODEL message with empty content the error message replaces it in
place (total count unchanged), otherwise it is appended (count grows by
one). -/
theorem errorReconcile_spec (prev : List Message) (eid errMsg : String)
    (now : Nat) (hmsg : errMsg ≠ "") :
    (mkErrorMessage eid errMsg now).role = Role.MODEL ∧
    (mkErrorMessage eid errMsg now).content = "**Error:** " ++ errMsg ∧
    (∀ l, prev.getLast? = some l → l.role = Role.MODEL → l.content = "" →
      reconcileError prev (mkErrorMessage eid errMsg now) =
        prev.dropLast ++ [mkErrorMessage eid errMsg now] ∧
      (reconcileError prev (mkErrorMessage eid errMsg now)).length =
        prev.length) ∧
    ((∀ l, prev.getLast? = some l → ¬(l.role = Role.MODEL ∧ l.content = "")) →
      reconcileError prev (mkErrorMessage eid errMsg now) =
        prev ++ [mkErrorMessage eid errMsg now] ∧
      (reconcileError prev (mkErrorMessage eid errMsg now)).length =
        prev.length + 1) := by
  have hbeq : (errMsg == "") = false := by
    simp only [beq_eq_false_iff_ne, ne_eq]
    exact hmsg
  refine ⟨rfl, ?_, ?_, ?_⟩
  · show "**Error:** " ++ (if errMsg == "" then fallbackErrorText else errMsg) =
      "**Error:** " ++ errMsg
    rw [hbeq]
    rfl
  · intro l hl hrole hcont
    have hne : prev ≠ [] := by
      intro h
      rw [h] at hl
      exact Option.noConfusion hl
    have hpos : 0 < prev.length := List.length_pos.mpr hne
    have hcond : (l.role == Role.MODEL && l.content == "") = true := by
      simp [hrole, hcont]
    have heq := reconcileError_eq_replace prev (mkErrorMessage eid errMsg now)
      l hl hcond
    refine ⟨heq, ?_⟩
    rw [heq]
    simp only [List.length_append, List.length_dropLast, List.length_singleton]
    omega
  · intro hno
    have hno' : ∀ l, prev.getLast? = some l →
        (l.role == Role.MODEL && l.content == "") = false := by
      intro l hgl
      have hnl := hno l hgl
      cases h1 : (l.role == Role.MODEL) with
      | false => simp [h1]
      | true =>
          cases h2 : (l.content == "") with
          | false => simp [h1, h2]
          | true => exact absurd ⟨by simpa using h1, by simpa using h2⟩ hnl
    have heq := reconcileError_eq_append prev (mkErrorMessage eid errMsg now)
      hno'
    refine ⟨heq, ?_⟩
    rw [heq]
    simp

/-- Witness for C3 at a concrete transcript ending in an empty MODEL
placeholder: the placeholder is replaced and the count stays 2. -/
theorem errorReconcile_spec_witness :
    reconcileError [samplePlainUserMsg, samplePlaceholder]
        (mkErrorMessage "3" "boom" 7) =
      [samplePlainUserMsg, samplePlaceholder].dropLast ++
        [mkErrorMessage "3" "boom" 7] ∧
    (reconcileError [samplePlainUserMsg, samplePlaceholder]
        (mkErrorMessage "3" "boom" 7)).length = 2 := by
  exact (errorReconcile_spec [samplePlainUserMsg, samplePlaceholder] "3"
    "boom" 7 (by decide)).2.2.1 samplePlaceholder (by decide) rfl rfl

theorem charsToNat_append_digit (l : List Char) (c : Char) :
    charsToNat (l ++ [c]) = charsToNat l * 10 + charToDigit c := by
  unfold charsToNat
  rw [List.foldl_append]
  rfl

theorem charToDigit_digitChar (n : Nat) (h : n < 10) :
    charToDigit (digitChar n) = n := by
  interval_cases n <;> rfl

theorem charsToNat_natToChars (n : Nat) : charsToNat (natToChars n) = n := by
  induction n using Nat.strong_induction_on with
  | _ n ih =>
    by_cases h : n < 10
    · rw [natToChars, dif_pos h]
      show 0 * 10 + charToDigit (digitChar n) = n
      rw [charToDigit_digitChar n h]
      omega
    · rw [natToChars, dif_neg h]
      rw [charsToNat_append_digit,
        ih (n / 10) (Nat.div_lt_self (by omega) (by omega)),
        charToDigit_digitChar _ (Nat.mod_lt _ (by omega))]
      omega

theorem parseTimestamp_serializeTimestamp (t : Nat) :
    parseTimestamp (serializeTimestamp t) = t := by
  unfold parseTimestamp serializeTimestamp
  exact charsToNat_natToChars t

theorem hydrateMessage_serializeMessage (m : Message) :
    hydrateMessage (serializeMessage m) = m := by
  unfold hydrateMessage serializeMessage
  cases m with
  | mk mi mr mc mt mimg =>
      cases mr <;>
        simp [parseRole, roleToString, parseTimestamp_serializeTimestamp]

/-- Claim C4: for every non-empty transcript, serializing to the persisted
form and deserializing (rehydrating each timestamp from its serialized
string) reproduces an equal message sequence. -/
theorem persist_roundtrip (ts : List Message) (_hne : ts ≠ []) :
    hydrateTranscript (persistTranscript ts) = ts := by
  unfold hydrateTranscript persistTranscript
  rw [List.map_map]
  conv_rhs => rw [← List.map_id ts]
  refine List.map_congr_left ?_
  intro m _
  exact hydrateMessage_serializeMessage m

/-- Witness for C4 at a concrete two-message transcript with an image and
both roles. -/
theorem persist_roundtrip_witness :
    hydrateTranscript (persistTranscript [sampleUserMsg, sampleModelMsg]) =
      [sampleUserMsg, sampleModelMsg] := by
  exact persist_roundtrip [sampleUserMsg, sampleModelMsg] (by decide)

theorem string_empty_append (s : String) : "" ++ s = s := rfl

theorem lastOverwrite (l : List ImageData) (d : ImageData)
    (i : Option ImageData) :
    ((d :: l).getLast?).elim i some = (l.getLast?).elim (some d) some := by
  cases l with
  | nil => rfl
  | cons x xs =>
      rw [List.getLast?_cons_cons]
      cases hx : (x :: xs).getLast? with
      | none => exact absurd (List.getLast?_eq_none_iff.mp hx) (by simp)
      | some y => rfl

theorem scanParts_spec (ps : List RespPart)
    (hwf : ∀ p ∈ ps, p.inlineData = none ∨ p.text = none) :
    ∀ (t : String) (i : Option ImageData),
      scanParts ps (t, i) =
        (t ++ joinAll (ps.filterMap (fun p => p.text)),
         ((ps.filterMap (fun p => p.inlineData)).getLast?).elim i some) := by
  induction ps with
  | nil =>
      intro t i
      show (t, i) = (t ++ joinAll [], i)
      simp [joinAll]
  | cons p rest ih =>
      intro t i
      have hwr : ∀ q ∈ rest, q.inlineData = none ∨ q.text = none :=
        fun q hq => hwf q (by simp [hq])
      cases hp : p.inlineData with
      | some d =>
          have hpt : p.text = none := by
            rcases hwf p (by simp) with h | h
            · rw [hp] at h
              exact Option.noConfusion h
            · exact h
          have hstep : scanParts (p :: rest) (t, i) = scanParts rest (t, some d) := by
            simp [scanParts, hp]
          rw [hstep, ih hwr t (some d)]
          simp only [List.filterMap_cons, hp, hpt]
          rw [lastOverwrite]
      | none =>
          cases hq : p.text with
          | none =>
              have hstep : scanParts (p :: rest) (t, i) = scanParts rest (t, i) := by
                simp [scanParts, hp, hq]
              rw [hstep, ih hwr t i]
              simp only [List.filterMap_cons, hp, hq]
          | some s =>
              cases hs : (s == "") with
              | true =>
                  have hse : s = "" := by simpa using hs
                  have hstep : scanParts (p :: rest) (t, i) = scanParts rest (t, i) := by
                    simp [scanParts, hp, hq, hs]
                  rw [hstep, ih hwr t i]
                  simp only [List.filterMap_cons, hp, hq]
                  rw [hse]
                  show (t ++ joinAll (List.filterMap _ rest), _) =
                    (t ++ ("" ++ joinAll (List.filterMap _ rest)), _)
                  rw [string_empty_append]
              | false =>
                  have hstep : scanParts (p :: rest) (t, i) =
                      scanParts rest (t ++ s, i) := by
                    simp [scanParts, hp, hq, hs]
                  rw [hstep, ih hwr (t ++ s) i]
                  simp only [List.filterMap_cons, hp, hq]
                  show (t ++ s ++ joinAll (List.filterMap _ rest), _) =
                    (t ++ (s ++ joinAll (List.filterMap _ rest)), _)
                  rw [String.append_assoc]

/-- Claim C5: `processImageTask` returns the ordered concatenation of the
response's text parts — or the fixed caption when that concatenation is
empty, including when there are no candidates — and the last inline-data
part as the image (none if no inline part is present). -/
theorem imageTask_spec (parts? : Option (List RespPart))
    (hwf : ∀ ps, parts? = some ps → ∀ p ∈ ps,
      p.inlineData = none ∨ p.text = none) :
    imageTaskResult parts? =
      (if concatTextOfParts parts? == "" then captionText
       else concatTextOfParts parts?,
       lastInlineOfParts parts?) := by
  cases parts? with
  | none => rfl
  | some ps =>
      show imageTaskResult (some ps) =
        (if joinAll (ps.filterMap (fun p => p.text)) == "" then captionText
         else joinAll (ps.filterMap (fun p => p.text)),
         (ps.filterMap (fun p => p.inlineData)).getLast?)
      have h1 : imageTaskResult (some ps) =
          (if (scanParts ps ("", none)).1 == "" then captionText
           else (scanParts ps ("", none)).1,
           (scanParts ps ("", none)).2) := rfl
      rw [h1, scanParts_spec ps (hwf ps rfl) "" none]
      simp only [string_empty_append]
      cases hgl : (ps.filterMap (fun p => p.inlineData)).getLast? with
      | none => rfl
      | some d => rfl

/-- Witness for C5: a response interleaving text parts and two inline-data
parts yields the concatenated text and the last image; an empty response
yields the caption. -/
theorem imageTask_spec_witness :
    imageTaskResult (some
        [{ inlineData := none, text := some "Hi " },
         { inlineData := some { data := "x", mimeType := "image/png" }, text := none },
         { inlineData := none, text := some "there" },
         { inlineData := some { data := "y", mimeType := "image/png" }, text := none }]) =
      (if concatTextOfParts (some
          [{ inlineData := none, text := some "Hi " },
           { inlineData := some { data := "x", mimeType := "image/png" }, text := none },
           { inlineData := none, text := some "there" },
           { inlineData := some { data := "y", mimeType := "image/png" }, text := none }]) == ""
       then captionText
       else concatTextOfParts (some
          [{ inlineData := none, text := some "Hi " },
           { inlineData := some { data := "x", mimeType := "image/png" }, text := none },
           { inlineData := none, text := some "there" },
           { inlineData := some { data := "y", mimeType := "image/png" }, text := none }]),
       lastInlineOfParts (some
          [{ inlineData := none, text := some "Hi " },
           { inlineData := some { data := "x", mimeType := "image/png" }, text := none },
           { inlineData := none, text := some "there" },
           { inlineData := some { data := "y", mimeType := "image/png" }, text := none }])) := by
  exact imageTask_spec _ (by intro ps hps p hp; rw [← Option.some_inj.mp hps] at hp; revert p hp; decide)

/-- Claim C8: a per-fragment streaming update touches only messages carrying
the placeholder's id: length is preserved, every entry keeps its id (and so
its position), and an entry whose id differs from the placeholder's is
entirely unchanged. -/
theorem streamUpdate_frame (ts : List Message) (mid c : String) :
    (updateContentById ts mid c).length = ts.length ∧
    (∀ i : Nat, ((updateContentById ts mid c).get? i).map (fun m => m.id) =
      (ts.get? i).map (fun m => m.id)) ∧
    (∀ i : Nat, ∀ m : Message, ts.get? i = some m → m.id ≠ mid →
      (updateContentById ts mid c).get? i = some m) := by
  refine ⟨List.length_map _ _, ?_, ?_⟩
  · intro i
    unfold updateContentById
    rw [List.get?_map]
    cases ts.get? i with
    | none => rfl
    | some m =>
        show some (if m.id == mid then _ else m).id = some m.id
        cases hb : (m.id == mid) with
        | false => rw [if_neg (by simp [hb])]
        | true => rw [if_pos (by simp [hb])]
  · intro i m hm hne
    unfold updateContentById
    rw [List.get?_map, hm]
    show some (if m.id == mid then _ else m) = some m
    have hb : (m.id == mid) = false := by
      simp only [beq_eq_false_iff_ne, ne_eq]
      exact hne
    rw [if_neg (by simp [hb])]

/-- Witness for C8: updating the placeholder's content leaves the USER
message at index 0 unchanged. -/
theorem streamUpdate_frame_witness :
    (updateContentById [samplePlainUserMsg, samplePlaceholder] "2"
      "Hel").get? 0 = some samplePlainUserMsg := by
  exact (streamUpdate_frame [samplePlainUserMsg, samplePlaceholder] "2"
    "Hel").2.2 0 samplePlainUserMsg rfl (by decide)

/-- Claim C9: with no API credential configured, both Gateway operations
fail with the configuration error, for every possible provider behaviour
(hence before any network call), and the error text states that the key is
not configured. -/
theorem missingKey_failsFast (apiKey : Option String)
    (h : hasApiKey apiKey = false) (history : List Message)
    (newMessage : String) (thinking : Bool) (image : Option ImageData)
    (netC : String → List ChatTurn → List String) (prompt : String)
    (imageData : Option ImageData)
    (netI : List ReqPart → Option (List RespPart)) :
    startChatStream apiKey history newMessage thinking image netC =
      Except.error configErrorText ∧
    processImageTask apiKey prompt imageData netI =
      Except.error configErrorText := by
  have hc : getAIClient apiKey = Except.error configErrorText := by
    unfold getAIClient
    rw [h]
    rfl
  constructor
  · unfold startChatStream
    rw [hc]
  · unfold processImageTask
    rw [hc]

/-- Witness for C9 with an unset key and arbitrary concrete provider
behaviours. -/
theorem missingKey_failsFast_witness :
    startChatStream none [] "hi" false none (fun _ _ => ["x"]) =
      Except.error configErrorText ∧
    processImageTask none "edit" none (fun _ => none) =
      Except.error configErrorText := by
  exact missingKey_failsFast none rfl [] "hi" false none (fun _ _ => ["x"])
    "edit" none (fun _ => none)

/-- Claim C10: the upstream request built by `startChatStream` represents
each prior message by a single text part holding its content — any image on
a prior message is omitted — and only the final (new) turn can carry an
image part; the request has one turn per history entry plus the new turn. -/
theorem chatRequest_history_textOnly (history : List Message)
    (newMessage : String) (image : Option ImageData) :
    (∀ i : Nat, ∀ m : Message, history.get? i = some m →
      (buildChatRequest history newMessage image).get? i =
        some { role := if m.role == Role.USER then "user" else "model",
               parts := [{ inlineData := none, text := some m.content }] }) ∧
    (∀ t ∈ (buildChatRequest history newMessage image).dropLast,
      ∀ p ∈ t.parts, p.inlineData = none) ∧
    (buildChatRequest history newMessage image).length =
      history.length + 1 := by
  refine ⟨?_, ?_, ?_⟩
  · intro i m hm
    have hlen : i < history.length := by
      rcases List.get?_eq_some.mp hm with ⟨hi, _⟩
      exact hi
    have hlen' : i < (formatHistory history).length := by
      unfold formatHistory
      rw [List.length_map]
      exact hlen
    unfold buildChatRequest
    rw [List.get?_append hlen']
    unfold formatHistory
    rw [List.get?_map, hm]
    rfl
  · intro t ht p hp
    unfold buildChatRequest at ht
    rw [List.dropLast_concat] at ht
    unfold formatHistory at ht
    rcases List.mem_map.mp ht with ⟨m, _, rfl⟩
    rcases List.mem_singleton.mp hp with rfl
    rfl
  · unfold buildChatRequest formatHistory
    rw [List.length_append, List.length_map]
    rfl

/-- Witness for C10: a prior message carrying an image is represented
upstream by its text content only. -/
theorem chatRequest_history_textOnly_witness :
    (buildChatRequest [sampleUserMsg] "and now?" none).get? 0 =
      some { role := "user",
             parts := [{ inlineData := none,
                         text := some sampleUserMsg.content }] } := by
  exact (chatRequest_history_textOnly [sampleUserMsg] "and now?" none).1 0
    sampleUserMsg rfl

end Zuno
